import Mathlib

/-!
Verification of tautulliToLetterboxd (tautulli_to_letterboxd.py).

The program is a one-shot export pipeline: it fetches a movie history from
the Tautulli HTTP API, filters watched records, resolves a per-item rating,
renders four-field CSV rows, deduplicates them and writes one CSV file.

Modelling conventions used throughout this file:
  * Python strings are modelled as lists of characters (abbrev Str).
  * The remote API is modelled by an environment Env giving, for each of the
    three requests the program can issue (count request, full-history request,
    per-item metadata request), either the decoded response or a
    requests.exceptions.ConnectionError carrying its message text.
  * Each modelled function returns the list of API calls it issued together
    with its result, so that claims about which requests are (not) issued are
    provable.
  * sys.exit(msg) is modelled as an explicit error value carrying msg; the
    uncaught TypeError raised when json_parser returns None is modelled as a
    separate value, since to_csv catches TypeError but not SystemExit.
  * JSON responses are modelled structurally at exactly the positions the
    code reads: the number of keys of the top-level object (the code iterates
    over it with a for loop), and the nested fields it indexes.  Responses
    whose nesting is broken in ways the code does not handle at all
    (e.g. response.data missing, which raises an uncaught KeyError elsewhere)
    are outside this model; no claim depends on them.
  * datetime.fromtimestamp(..).strftime of the source converts in the local
    timezone; the model fixes the timezone to UTC (no claim concerns the
    concrete calendar date).
  * The Halo progress indicator and the print statements are UI-only and are
    not modelled (the spec itself declares them out of scope).
-/

namespace Tautulli

/-- Python strings are modelled as lists of characters. -/
abbrev Str := List Char

/-- Model of Python str.split with separator a single newline character,
as used in line 101 of the source: name.split with a newline.
Python semantics: splitting the empty string yields one empty segment, a
trailing separator yields a trailing empty segment. -/
def pySplitNl : Str → List Str
  | [] => [[]]
  | c :: cs =>
    if c = '\n' then [] :: pySplitNl cs
    else
      match pySplitNl cs with
      | [] => [[c]]
      | s :: ss => (c :: s) :: ss

/-- Model of Python str.strip with no arguments: remove whitespace from both
ends of the string. -/
def pyStrip (l : Str) : Str :=
  ((l.dropWhile Char.isWhitespace).reverse.dropWhile Char.isWhitespace).reverse

/-- Model of Python sep.join applied to a list of strings. -/
def pyJoin (sep : Str) : List Str → Str
  | [] => []
  | [x] => x
  | x :: y :: rest => x ++ sep ++ pyJoin sep (y :: rest)

/-- The title-normalization expression of source line 101: split the raw
title on newlines, keep the segments that are non-empty before stripping,
strip each kept segment, and join the results with single spaces. -/
def normalizeTitle (name : Str) : Str :=
  pyJoin [' '] (((pySplitNl name).filter (fun a => a ≠ [])).map pyStrip)

/-- The literal double-quote character (used by the percent-format template
of source line 101, which wraps the normalized title in quotes). -/
def quoteChar : Char := Char.ofNat 34

/-- Source line 101: if the raw title contains a comma, the rendered title is
the normalized title wrapped in literal double quotes; otherwise the raw
title is used verbatim. -/
def renderTitle (name : Str) : Str :=
  if ',' ∈ name then quoteChar :: (normalizeTitle name ++ [quoteChar]) else name

/-- Civil-from-days conversion (proleptic Gregorian calendar): given a number
of days since the Unix epoch, return (year, month, day).  This models the
calendar arithmetic behind datetime.fromtimestamp in the source, with the
timezone fixed to UTC. -/
def civilFromDays (z0 : Int) : Int × Int × Int :=
  let z : Int := z0 + 719468
  let era : Int := (if 0 ≤ z then z else z - 146096) / 146097
  let doe : Int := z - era * 146097
  let yoe : Int := (doe - doe / 1460 + doe / 36524 - doe / 146096) / 365
  let y : Int := yoe + era * 400
  let doy : Int := doe - (365 * yoe + yoe / 4 - yoe / 100)
  let mp : Int := (5 * doy + 2) / 153
  let d : Int := doy - (153 * mp + 2) / 5 + 1
  let m : Int := if mp < 10 then mp + 3 else mp - 9
  (if m ≤ 2 then y + 1 else y, m, d)

/-- Decimal digits of a natural number, left-padded with zero characters to a
given minimal width (strftime zero-pads its numeric fields). -/
def padDigits (width n : Nat) : Str :=
  let ds := Nat.toDigits 10 n
  List.replicate (width - ds.length) '0' ++ ds

/-- Render a signed calendar component, zero-padded. -/
def padInt (width : Nat) (i : Int) : Str :=
  if i < 0 then '-' :: padDigits width i.natAbs else padDigits width i.toNat

/-- Source lines 107-108: datetime.fromtimestamp(int(date)).strftime of the
pattern year-month-day, modelled at UTC: floor-divide the timestamp by 86400
to get the day number, convert to a civil date and zero-pad the fields. -/
def formatDate (ts : Int) : Str :=
  match civilFromDays (Int.fdiv ts 86400) with
  | (y, m, d) => padInt 4 y ++ ['-'] ++ padInt 2 m ++ ['-'] ++ padInt 2 d

/-- Python rendering of the rating value inside the row f-string: the value
returned by rating_handler is either None, rendered as the four characters
of the word None, or the rating value itself. -/
def pyStrOfRating : Option Str → Str
  | none => "None".data
  | some v => v

/-- One element of response.data.data of the full-history response, at
exactly the fields json_parser reads.  watched_status is the raw comparison
value (the code tests it for equality with the integer 1); title, year and
rating_key are taken through Python str(); date is taken through int(). -/
structure Record where
  watched_status : Int
  title : Str
  year : Str
  rating_key : Str
  date : Int
deriving DecidableEq

/-- Source lines 109-111: render the four comma-joined fields of one row. -/
def renderRow (r : Record) (rating10 : Option Str) : Str :=
  renderTitle r.title ++ [','] ++ r.year ++ [','] ++
    pyStrOfRating rating10 ++ [','] ++ formatDate r.date

/-- The count-phase get_history response, at the positions get_length reads:
the number of keys of the top-level JSON object (iterated over by its for
loop) and the value of response.data.recordsFiltered, absent when the key
lookup raises KeyError. -/
structure CountJson where
  numKeys : Nat
  recordsFiltered : Option Nat
deriving DecidableEq

/-- The full-history get_history response, at the positions json_parser
reads: the number of keys of the top-level JSON object and the record list
response.data.data. -/
structure HistoryJson where
  numKeys : Nat
  data : List Record
deriving DecidableEq

/-- The get_metadata response, at the positions rating_handler reads: the
number of keys of the top-level JSON object, whether response.data is empty
(falsy), and otherwise the rendering of response.data.user_rating. -/
structure MetaJson where
  numKeys : Nat
  dataEmpty : Bool
  user_rating : Str
deriving DecidableEq

/-- The remote API as seen by one run: each of the three requests either
returns a decoded JSON body or raises a connection error whose message text
is the error value. -/
structure Env where
  countResp : Except Str CountJson
  historyResp : Option Nat → Except Str HistoryJson
  metaResp : Str → Except Str MetaJson

/-- One HTTP request issued by the program: the get_history call without a
length parameter (count phase), the get_history call with the length
parameter (full fetch; None when get_length fell through and returned None),
or a get_metadata call for one rating key. -/
inductive ApiCall where
  | getHistoryCount : ApiCall
  | getHistoryFull : Option Nat → ApiCall
  | getMetadata : Str → ApiCall
deriving DecidableEq

/-- Message text constants of the source. -/
def nlStr : Str := "\n".data

/-- Remediation hint appended by api_handler on a connection error. -/
def baseUrlHint : Str := "Base URL invalid, please try again".data

/-- Message passed to exit by get_length when recordsFiltered is absent. -/
def apiKeyMsg : Str := "API key invalid, please try again".data

/-- Hint appended by json_parser when an IndexError is caught. -/
def indexErrHint : Str := "Index Error, please check your configuration and try again".data

/-- Hint appended by to_csv when a TypeError is caught. -/
def invalidUserHint : Str := "Invalid user, please check your configuration and try again".data

/-- CPython text of the IndexError raised by indexing past a list's end. -/
def idxErrText : Str := "list index out of range".data

/-- CPython text of the TypeError raised by unpacking None into two names. -/
def unpackErrText : Str := "cannot unpack non-iterable NoneType object".data

/-- Stand-in for the CPython text of the TypeError raised when comparing an
int with None in the while condition (the exact CPython text additionally
puts the operator and the type names in quote marks). -/
def cmpNoneErrText : Str := "unsupported comparison between int and NoneType".data

/-- The fixed header line written by to_csv. -/
def headerText : Str := "Title,Year,Rating10,WatchedDate".data

/-- The default line terminator of the csv writer. -/
def crlf : Str := "\r\n".data

/-- Source lines 44-51, api_handler: issue the request; on a connection
error, sys.exit with the error text followed by the remediation hint, else
return the decoded JSON body.  The error side of the result is the
sys.exit message. -/
def api_handler {α : Type} (resp : Except Str α) : Except Str α :=
  match resp with
  | .error e => .error (e ++ nlStr ++ baseUrlHint)
  | .ok j => .ok j

/-- Source lines 55-63, rating_handler: issue the get_metadata request
through api_handler; iterate over the top-level response object: if it has
no keys the loop body never runs and the function returns None; otherwise,
if response.data is empty return None, else return response.data.user_rating.
The first component is the list of API calls issued; the error side of the
second carries the sys.exit message of a connection error. -/
def rating_handler (env : Env) (key : Str) : List ApiCall × Except Str (Option Str) :=
  ([ApiCall.getMetadata key],
   match api_handler (env.metaResp key) with
   | .error m => .error m
   | .ok j =>
     if j.numKeys = 0 then .ok none
     else if j.dataEmpty then .ok none
     else .ok (some j.user_rating))

/-- Source lines 67-74, get_length: issue the count-phase get_history
request through api_handler; iterate over the top-level response object: if
it has no keys the loop body never runs and the function returns None
(modelled as ok none); otherwise return int of
response.data.recordsFiltered, or sys.exit with the API-key message when
that lookup raises KeyError. -/
def get_length (env : Env) : List ApiCall × Except Str (Option Nat) :=
  ([ApiCall.getHistoryCount],
   match api_handler env.countResp with
   | .error m => .error m
   | .ok j =>
     if j.numKeys = 0 then .ok none
     else
       match j.recordsFiltered with
       | some n => .ok (some n)
       | none => .error apiKeyMsg)

/-- Result of the while loop of json_parser (source lines 92-121):
returned carries the movies list and its length from the return statement;
fellThrough means the while condition became false without returning (the
surrounding for loop then moves to its next iteration); idxErr is an
IndexError raised by indexing the record list; exited is a SystemExit
raised inside rating_handler (connection error). -/
inductive LoopOut where
  | returned : List Str → Nat → LoopOut
  | fellThrough : List Str → LoopOut
  | idxErr : Str → LoopOut
  | exited : Str → LoopOut
deriving DecidableEq

/-- Source line 113: append the row to the movies list unless it is already
present. -/
def insertNew (movies : List Str) (row : Str) : List Str :=
  if row ∈ movies then movies else movies ++ [row]

/-- The while loop of json_parser (source lines 92-121), one run of the for
loop body starting at the given count with the given accumulated movies
list.  While count is at most total, read record count of the list (an
IndexError if the list is too short); if its watched_status equals 1,
render the title, year, rating (one get_metadata request) and watched date,
join them into a row and append the row if it is not yet present; then
increment count and return the movies list together with its length once
count equals total. -/
def whileLoop (env : Env) (data : List Record) (total : Nat) (count : Nat)
    (movies : List Str) : List ApiCall × LoopOut :=
  if h : count ≤ total then
    if hidx : count < data.length then
      let r := data[count]
      if r.watched_status = 1 then
        match rating_handler env r.rating_key with
        | (calls, .error m) => (calls, LoopOut.exited m)
        | (calls, .ok rating10) =>
          let row := renderRow r rating10
          let movies' := insertNew movies row
          if count + 1 = total then (calls, LoopOut.returned movies' movies'.length)
          else
            let rest := whileLoop env data total (count + 1) movies'
            (calls ++ rest.1, rest.2)
      else
        if count + 1 = total then ([], LoopOut.returned movies movies.length)
        else whileLoop env data total (count + 1) movies
    else ([], LoopOut.idxErr idxErrText)
  else ([], LoopOut.fellThrough movies)
termination_by total + 1 - count
decreasing_by
  · omega
  · omega

/-- Result of json_parser as seen by to_csv: ok carries the Python return
value (None when the function fell off its end, or the movies/length pair);
sysExit is a SystemExit propagating out (to_csv does not catch it); typeErr
is a TypeError propagating out (to_csv catches it). -/
inductive Outcome (α : Type) where
  | ok : α → Outcome α
  | sysExit : Str → Outcome α
  | typeErr : Str → Outcome α
deriving DecidableEq

/-- The for loop of json_parser (source lines 91-121) together with its
surrounding try/except IndexError: run the while loop once per key of the
top-level response object, threading the movies list; a return inside the
while loop returns from json_parser; an IndexError is caught and turned
into sys.exit of its text plus the index-error hint; a SystemExit
propagates; if the iteration finishes with no return, json_parser returns
None. -/
def forLoop (env : Env) (data : List Record) (total : Nat) :
    Nat → List Str → List ApiCall × Outcome (Option (List Str × Nat))
  | 0, _ => ([], Outcome.ok none)
  | Nat.succ k, movies =>
    match whileLoop env data total 0 movies with
    | (calls, LoopOut.returned ms n) => (calls, Outcome.ok (some (ms, n)))
    | (calls, LoopOut.exited m) => (calls, Outcome.sysExit m)
    | (calls, LoopOut.idxErr m) =>
      (calls, Outcome.sysExit (m ++ nlStr ++ indexErrHint))
    | (calls, LoopOut.fellThrough ms) =>
      let rest := forLoop env data total k ms
      (calls ++ rest.1, rest.2)

/-- Source lines 78-121, json_parser: call get_length; a sys.exit inside it
propagates; then issue the full-history get_history request with the length
parameter set to get_length's result (even when that result is None); on a
connection error api_handler exits; then iterate over the top-level
response object.  When get_length returned None and the response object is
non-empty, the while condition compares an int with None and raises an
uncaught TypeError; when the response object has no keys, json_parser falls
off its end and returns None.  Otherwise the for/while loops run. -/
def jsonParser (env : Env) : List ApiCall × Outcome (Option (List Str × Nat)) :=
  match get_length env with
  | (calls, .error m) => (calls, Outcome.sysExit m)
  | (calls, .ok totalOpt) =>
    let calls2 := calls ++ [ApiCall.getHistoryFull totalOpt]
    match api_handler (env.historyResp totalOpt) with
    | .error m => (calls2, Outcome.sysExit m)
    | .ok j =>
      match totalOpt with
      | none =>
        if j.numKeys = 0 then (calls2, Outcome.ok none)
        else (calls2, Outcome.typeErr cmpNoneErrText)
      | some total =>
        let rest := forLoop env j.data total j.numKeys []
        (calls2 ++ rest.1, rest.2)

/-- One csv.writer writerow call with delimiter a newline, QUOTE_NONE and
quotechar None: if any field contains a character of the delimiter or of
the line terminator, the writer needs to escape and raises csv.Error
(there is no escapechar); otherwise the fields joined by the delimiter
followed by the carriage-return/newline terminator are written. -/
def writerow (fields : List Str) : Except Str Str :=
  if fields.any (fun f => f.any (fun c => c = '\n' || c = '\r')) then
    .error ("need to escape, but no escapechar set".data)
  else
    .ok (pyJoin nlStr fields ++ crlf)

/-- Outcome of one whole run of to_csv: completed carries the full content
of the written file and the exported-row count that is printed;
abortedNoFile is a sys.exit that happened before the output file was
opened (the file is neither created nor modified); crashed is an uncaught
csv.Error raised during the second writerow, after the header was already
written to the (now closed and flushed) file. -/
inductive RunResult where
  | completed : Str → Nat → RunResult
  | abortedNoFile : Str → RunResult
  | crashed : Str → Str → RunResult
deriving DecidableEq

/-- Source lines 125-138, to_csv: call json_parser and unpack its result.
A SystemExit from inside propagates (no file was opened); a TypeError —
either raised inside json_parser or by unpacking a returned None — is
caught and turned into sys.exit of its text plus the invalid-user hint
(again before the file was opened).  Only with an unpacked movies list is
the output file opened; the header row is written, then the movies list as
one writerow whose fields are the already-rendered rows. -/
def to_csv (env : Env) : List ApiCall × RunResult :=
  match jsonParser env with
  | (calls, Outcome.sysExit m) => (calls, RunResult.abortedNoFile m)
  | (calls, Outcome.typeErr m) =>
    (calls, RunResult.abortedNoFile (m ++ nlStr ++ invalidUserHint))
  | (calls, Outcome.ok none) =>
    (calls, RunResult.abortedNoFile (unpackErrText ++ nlStr ++ invalidUserHint))
  | (calls, Outcome.ok (some (movies, n))) =>
    match writerow [headerText] with
    | .error e => (calls, RunResult.crashed [] e)
    | .ok headerOut =>
      match writerow movies with
      | .error e => (calls, RunResult.crashed headerOut e)
      | .ok moviesOut => (calls, RunResult.completed (headerOut ++ moviesOut) n)

/-- The rating value that ends up in the row of a record whose metadata
request succeeds: None when the response object is empty or response.data
is empty, else the user_rating value (this is the ok side of
rating_handler). -/
def ratingValue (env : Env) (key : Str) : Option Str :=
  match (rating_handler env key).2 with
  | .ok v => v
  | .error _ => none

/-- The row json_parser renders for one record before deduplication. -/
def candidateRow (env : Env) (r : Record) : Str :=
  renderRow r (ratingValue env r.rating_key)

/-- The watched-status filter of source line 96: the record's
watched_status compares equal to the integer 1. -/
def isWatched (r : Record) : Bool :=
  r.watched_status = 1

/-- All candidate rows of a record list: one per record with
watched_status equal to 1, in feed order; records with any other status
contribute none. -/
def candidateRows (env : Env) (data : List Record) : List Str :=
  (data.filter isWatched).map (candidateRow env)

/-- The get_metadata calls issued while looping over a record list: one per
watched record, in feed order. -/
def metadataCalls (data : List Record) : List ApiCall :=
  (data.filter isWatched).map (fun r => ApiCall.getMetadata r.rating_key)

/-- First-seen deduplication: fold insertNew over the candidate rows
starting from the empty list, exactly as the movies list is built. -/
def firstSeen (l : List Str) : List Str :=
  List.foldl insertNew [] l

/-- Structural companion of firstSeen used for its proofs: the rows of l
not yet in acc, each kept at its first occurrence. -/
def firstSeenAux (acc : List Str) : List Str → List Str
  | [] => []
  | x :: xs =>
    if x ∈ acc then firstSeenAux acc xs
    else x :: firstSeenAux (acc ++ [x]) xs

/-- Proof companion of the while loop, indexed by the suffix of the record
list still to be processed instead of by the count variable; used through
the bridge lemma relating it to whileLoop when the server-reported total
equals the number of records. -/
def loopSpec (env : Env) : List Record → List Str → List ApiCall × LoopOut
  | [], movies => ([], LoopOut.fellThrough movies)
  | r :: rest, movies =>
    if r.watched_status = 1 then
      match rating_handler env r.rating_key with
      | (calls, .error m) => (calls, LoopOut.exited m)
      | (calls, .ok rating10) =>
        let movies' := insertNew movies (renderRow r rating10)
        if rest = [] then (calls, LoopOut.returned movies' movies'.length)
        else
          let next := loopSpec env rest movies'
          (calls ++ next.1, next.2)
    else
      if rest = [] then ([], LoopOut.returned movies movies.length)
      else loopSpec env rest movies

/-- Whether json_parser produced an unpackable movies/length pair. -/
def isSuccessOutcome : Outcome (Option (List Str × Nat)) → Bool
  | Outcome.ok (some _) => true
  | _ => false

/-! ### Concrete inputs used to instantiate the claims -/

/-- A watched record with a clean, comma-free title. -/
def recWatched : Record :=
  { watched_status := 1, title := "Heat".data, year := "1995".data,
    rating_key := "101".data, date := 1700000000 }

/-- An unwatched record. -/
def recUnwatched : Record :=
  { watched_status := 0, title := "Skipped Movie".data, year := "2001".data,
    rating_key := "102".data, date := 1700000000 }

/-- A watched record whose metadata request will be set up to fail. -/
def recBadMeta : Record :=
  { watched_status := 1, title := "Doomed".data, year := "2005".data,
    rating_key := "666".data, date := 1700000000 }

/-- A metadata response with a present rating. -/
def metaOkJson : MetaJson :=
  { numKeys := 1, dataEmpty := false, user_rating := "8".data }

/-- A metadata response whose data payload is empty. -/
def metaEmptyJson : MetaJson :=
  { numKeys := 1, dataEmpty := true, user_rating := [] }

/-- Environment of a successful run whose single fetched record is
unwatched: the export completes with zero rows. -/
def envC1cex : Env :=
  { countResp := Except.ok { numKeys := 1, recordsFiltered := some 1 },
    historyResp := fun _ => Except.ok { numKeys := 1, data := [recUnwatched] },
    metaResp := fun _ => Except.ok metaOkJson }

/-- Environment of a successful run with one watched and one unwatched
record. -/
def envC1wit : Env :=
  { countResp := Except.ok { numKeys := 1, recordsFiltered := some 2 },
    historyResp := fun _ => Except.ok { numKeys := 1, data := [recWatched, recUnwatched] },
    metaResp := fun _ => Except.ok metaOkJson }

/-- Environment with one watched record, used for the candidate-row claims. -/
def envC4wit : Env :=
  { countResp := Except.ok { numKeys := 1, recordsFiltered := some 2 },
    historyResp := fun _ => Except.ok { numKeys := 1, data := [recUnwatched, recWatched] },
    metaResp := fun _ => Except.ok metaOkJson }

/-- Environment whose count response is a non-empty object lacking the
recordsFiltered field. -/
def envC5wit : Env :=
  { countResp := Except.ok { numKeys := 2, recordsFiltered := none },
    historyResp := fun _ => Except.ok { numKeys := 1, data := [] },
    metaResp := fun _ => Except.ok metaOkJson }

/-- Environment whose metadata responses all carry an empty data payload. -/
def envC6wit : Env :=
  { countResp := Except.ok { numKeys := 1, recordsFiltered := some 1 },
    historyResp := fun _ => Except.ok { numKeys := 1, data := [recWatched] },
    metaResp := fun _ => Except.ok metaEmptyJson }

/-- Environment whose count request raises a connection error. -/
def envC7a : Env :=
  { countResp := Except.error "conn refused at count".data,
    historyResp := fun _ => Except.ok { numKeys := 1, data := [] },
    metaResp := fun _ => Except.ok metaOkJson }

/-- Environment whose full-history request raises a connection error. -/
def envC7b : Env :=
  { countResp := Except.ok { numKeys := 1, recordsFiltered := some 1 },
    historyResp := fun _ => Except.error "conn refused at fetch".data,
    metaResp := fun _ => Except.ok metaOkJson }

/-- Environment whose metadata request for one rating key raises a
connection error, the records before it being fine. -/
def envC7c : Env :=
  { countResp := Except.ok { numKeys := 1, recordsFiltered := some 3 },
    historyResp := fun _ =>
      Except.ok { numKeys := 1, data := [recWatched, recUnwatched, recBadMeta] },
    metaResp := fun k =>
      if k = recBadMeta.rating_key then Except.error "conn refused at meta".data
      else Except.ok metaOkJson }

/-- Environment whose count request raises a connection error (used to
exercise the no-file-on-abort property). -/
def envC8wit : Env :=
  { countResp := Except.error "unreachable host".data,
    historyResp := fun _ => Except.ok { numKeys := 1, data := [] },
    metaResp := fun _ => Except.ok metaOkJson }

/-- Environment reporting a filtered record count of zero with an empty
record list. -/
def envC9wit : Env :=
  { countResp := Except.ok { numKeys := 1, recordsFiltered := some 0 },
    historyResp := fun _ => Except.ok { numKeys := 1, data := [] },
    metaResp := fun _ => Except.ok metaOkJson }

/-- Environment whose full-history response is a JSON object with no keys. -/
def envC10wit : Env :=
  { countResp := Except.ok { numKeys := 1, recordsFiltered := some 3 },
    historyResp := fun _ => Except.ok { numKeys := 0, data := [] },
    metaResp := fun _ => Except.ok metaOkJson }

/-! ### Lemmas about the Python string helpers -/

theorem pySplitNl_ne_nil (l : Str) : pySplitNl l ≠ [] := by
  match l with
  | [] => simp [pySplitNl]
  | c :: cs =>
    simp only [pySplitNl]
    split
    · simp
    · split <;> simp

theorem mem_of_mem_pySplitNl {c : Char} :
    ∀ {l seg : Str}, seg ∈ pySplitNl l → c ∈ seg → c ∈ l := by
  intro l
  induction l with
  | nil =>
    intro seg hseg hc
    simp [pySplitNl] at hseg
    subst hseg
    simp at hc
  | cons x xs ih =>
    intro seg hseg hc
    by_cases hx : x = '\n'
    · rw [pySplitNl, if_pos hx] at hseg
      rcases List.mem_cons.mp hseg with rfl | hseg
      · simp at hc
      · exact List.mem_cons_of_mem _ (ih hseg hc)
    · rcases hps : pySplitNl xs with _ | ⟨s, ss⟩
      · exact absurd hps (pySplitNl_ne_nil xs)
      · rw [pySplitNl, if_neg hx, hps] at hseg
        rcases List.mem_cons.mp hseg with rfl | hseg
        · rcases List.mem_cons.mp hc with rfl | hc
          · exact List.mem_cons_self _ _
          · refine List.mem_cons_of_mem _ (ih ?_ hc)
            rw [hps]
            exact List.mem_cons_self _ _
        · refine List.mem_cons_of_mem _ (ih ?_ hc)
          rw [hps]
          exact List.mem_cons_of_mem _ hseg

theorem exists_seg_of_mem {c : Char} (hcnl : c ≠ '\n') :
    ∀ {l : Str}, c ∈ l → ∃ seg, seg ∈ pySplitNl l ∧ c ∈ seg := by
  intro l
  induction l with
  | nil => intro h; simp at h
  | cons x xs ih =>
    intro h
    by_cases hx : x = '\n'
    · rcases List.mem_cons.mp h with rfl | h
      · exact absurd hx hcnl
      · rcases ih h with ⟨seg, hseg, hcs⟩
        exact ⟨seg, by rw [pySplitNl, if_pos hx]; exact List.mem_cons_of_mem _ hseg, hcs⟩
    · rcases hps : pySplitNl xs with _ | ⟨s, ss⟩
      · exact absurd hps (pySplitNl_ne_nil xs)
      · rcases List.mem_cons.mp h with rfl | h
        · refine ⟨c :: s, ?_, List.mem_cons_self _ _⟩
          rw [pySplitNl, if_neg hx, hps]
          exact List.mem_cons_self _ _
        · rcases ih h with ⟨seg, hseg, hcs⟩
          rw [hps] at hseg
          rcases List.mem_cons.mp hseg with rfl | hseg
          · refine ⟨x :: seg, ?_, List.mem_cons_of_mem _ hcs⟩
            rw [pySplitNl, if_neg hx, hps]
            exact List.mem_cons_self _ _
          · refine ⟨seg, ?_, hcs⟩
            rw [pySplitNl, if_neg hx, hps]
            exact List.mem_cons_of_mem _ hseg

theorem mem_dropWhile_of_not {p : Char → Bool} {c : Char} (hpc : p c = false) :
    ∀ {l : Str}, c ∈ l → c ∈ l.dropWhile p := by
  intro l
  induction l with
  | nil => intro h; simp at h
  | cons x xs ih =>
    intro hmem
    rw [List.dropWhile_cons]
    split
    · next hx =>
      rcases List.mem_cons.mp hmem with rfl | h
      · rw [hpc] at hx; exact absurd hx (by simp)
      · exact ih h
    · exact hmem

theorem mem_of_mem_dropWhile {p : Char → Bool} {c : Char} :
    ∀ {l : Str}, c ∈ l.dropWhile p → c ∈ l := by
  intro l
  induction l with
  | nil => intro h; simp at h
  | cons x xs ih =>
    intro hmem
    rw [List.dropWhile_cons] at hmem
    split at hmem
    · exact List.mem_cons_of_mem _ (ih hmem)
    · exact hmem

theorem mem_of_mem_pyStrip {c : Char} {l : Str} (h : c ∈ pyStrip l) : c ∈ l := by
  rw [pyStrip, List.mem_reverse] at h
  have h1 := mem_of_mem_dropWhile h
  rw [List.mem_reverse] at h1
  exact mem_of_mem_dropWhile h1

theorem mem_pyStrip_of_not_ws {c : Char} (hws : c.isWhitespace = false) {l : Str}
    (h : c ∈ l) : c ∈ pyStrip l := by
  rw [pyStrip, List.mem_reverse]
  refine mem_dropWhile_of_not hws ?_
  rw [List.mem_reverse]
  exact mem_dropWhile_of_not hws h

theorem mem_pyJoin_of_mem {sep : Str} {c : Char} :
    ∀ {xss : List Str} {xs : Str}, xs ∈ xss → c ∈ xs → c ∈ pyJoin sep xss := by
  intro xss
  induction xss with
  | nil => intro xs h; simp at h
  | cons x rest ih =>
    intro xs hxs hc
    cases rest with
    | nil =>
      rcases List.mem_cons.mp hxs with rfl | h
      · exact hc
      · simp at h
    | cons y rest' =>
      rcases List.mem_cons.mp hxs with rfl | h
      · exact List.mem_append_left _ (List.mem_append_left _ hc)
      · exact List.mem_append_right _ (ih h hc)

theorem mem_pyJoin_cases {sep : Str} {c : Char} :
    ∀ {xss : List Str}, c ∈ pyJoin sep xss → (∃ xs ∈ xss, c ∈ xs) ∨ c ∈ sep := by
  intro xss
  induction xss with
  | nil => intro h; simp [pyJoin] at h
  | cons x rest ih =>
    intro h
    cases rest with
    | nil => exact Or.inl ⟨x, List.mem_cons_self _ _, h⟩
    | cons y rest' =>
      rcases List.mem_append.mp h with h1 | h1
      · rcases List.mem_append.mp h1 with h2 | h2
        · exact Or.inl ⟨x, List.mem_cons_self _ _, h2⟩
        · exact Or.inr h2
      · rcases ih h1 with ⟨xs, hxs, hc⟩ | h2
        · exact Or.inl ⟨xs, List.mem_cons_of_mem _ hxs, hc⟩
        · exact Or.inr h2

/-- A comma occurs in the normalized title exactly when it occurs in the raw
title: the normalization only removes whitespace and newline-splitting
boundaries and only inserts single spaces. -/
theorem comma_mem_normalizeTitle {name : Str} :
    ',' ∈ normalizeTitle name ↔ ',' ∈ name := by
  constructor
  · intro h
    rw [normalizeTitle] at h
    rcases mem_pyJoin_cases h with ⟨s, hs, hcs⟩ | hsep
    · rcases List.mem_map.mp hs with ⟨t, ht, rfl⟩
      have ht' := List.mem_filter.mp ht
      exact mem_of_mem_pySplitNl ht'.1 (mem_of_mem_pyStrip hcs)
    · simp at hsep
  · intro h
    rcases exists_seg_of_mem (by decide) h with ⟨seg, hseg, hcseg⟩
    have hne : seg ≠ [] := by rintro rfl; simp at hcseg
    have hfil : seg ∈ (pySplitNl name).filter (fun a => a ≠ []) :=
      List.mem_filter.mpr ⟨hseg, by simp [hne]⟩
    have hstrip : ',' ∈ pyStrip seg := mem_pyStrip_of_not_ws (by decide) hcseg
    exact mem_pyJoin_of_mem (List.mem_map.mpr ⟨seg, hfil, rfl⟩) hstrip

theorem renderTitle_of_comma {name : Str} (h : ',' ∈ name) :
    renderTitle name = quoteChar :: (normalizeTitle name ++ [quoteChar]) := by
  rw [renderTitle, if_pos h]

theorem renderTitle_of_no_comma {name : Str} (h : ',' ∉ name) :
    renderTitle name = name := by
  rw [renderTitle, if_neg h]

/-! ### Lemmas about first-seen deduplication -/

theorem foldl_insertNew_eq (l : List Str) :
    ∀ acc, List.foldl insertNew acc l = acc ++ firstSeenAux acc l := by
  induction l with
  | nil => intro acc; simp [firstSeenAux]
  | cons x xs ih =>
    intro acc
    simp only [List.foldl_cons, firstSeenAux]
    by_cases hx : x ∈ acc
    · rw [if_pos hx]
      have hstep : insertNew acc x = acc := by rw [insertNew, if_pos hx]
      rw [hstep, ih acc]
    · rw [if_neg hx]
      have hstep : insertNew acc x = acc ++ [x] := by rw [insertNew, if_neg hx]
      rw [hstep, ih (acc ++ [x])]
      simp

theorem firstSeenAux_sublist : ∀ (l : List Str) (acc), List.Sublist (firstSeenAux acc l) l := by
  intro l
  induction l with
  | nil => intro acc; simp [firstSeenAux]
  | cons x xs ih =>
    intro acc
    simp only [firstSeenAux]
    split
    · exact (ih acc).trans (List.sublist_cons_self x xs)
    · exact (ih (acc ++ [x])).cons₂ x

theorem mem_firstSeenAux {x : Str} :
    ∀ {l : List Str} {acc}, x ∈ firstSeenAux acc l ↔ x ∈ l ∧ x ∉ acc := by
  intro l
  induction l with
  | nil => intro acc; simp [firstSeenAux]
  | cons y ys ih =>
    intro acc
    simp only [firstSeenAux]
    by_cases hy : y ∈ acc
    · rw [if_pos hy, ih]
      constructor
      · rintro ⟨h1, h2⟩
        exact ⟨List.mem_cons_of_mem _ h1, h2⟩
      · rintro ⟨h1, h2⟩
        rcases List.mem_cons.mp h1 with rfl | h1
        · exact absurd hy h2
        · exact ⟨h1, h2⟩
    · rw [if_neg hy]
      constructor
      · intro h
        rcases List.mem_cons.mp h with rfl | h
        · exact ⟨List.mem_cons_self _ _, hy⟩
        · have h' := ih.mp h
          exact ⟨List.mem_cons_of_mem _ h'.1, fun hx => h'.2 (List.mem_append_left _ hx)⟩
      · rintro ⟨h1, h2⟩
        rcases List.mem_cons.mp h1 with rfl | h1
        · exact List.mem_cons_self _ _
        · by_cases hxy : x = y
          · subst hxy
            exact List.mem_cons_self _ _
          · refine List.mem_cons_of_mem _ (ih.mpr ⟨h1, ?_⟩)
            intro hx
            rcases List.mem_append.mp hx with h | h
            · exact h2 h
            · simp at h
              exact hxy h

theorem firstSeenAux_nodup : ∀ (l : List Str) (acc), (firstSeenAux acc l).Nodup := by
  intro l
  induction l with
  | nil => intro acc; simp [firstSeenAux]
  | cons y ys ih =>
    intro acc
    simp only [firstSeenAux]
    split
    · exact ih acc
    · refine List.nodup_cons.mpr ⟨?_, ih (acc ++ [y])⟩
      intro hy
      exact (mem_firstSeenAux.mp hy).2 (List.mem_append_right _ (by simp))

theorem firstSeen_eq_aux (l : List Str) : firstSeen l = firstSeenAux [] l := by
  rw [firstSeen, foldl_insertNew_eq]
  simp

/-- The deduplicated list contains no duplicates. -/
theorem firstSeen_nodup (l : List Str) : (firstSeen l).Nodup := by
  rw [firstSeen_eq_aux]
  exact firstSeenAux_nodup l []

/-- The deduplicated list is a subsequence of the candidate list: its rows
appear in first-seen feed order. -/
theorem firstSeen_sublist (l : List Str) : List.Sublist (firstSeen l) l := by
  rw [firstSeen_eq_aux]
  exact firstSeenAux_sublist l []

/-- The deduplicated list has exactly the rows of the candidate list. -/
theorem mem_firstSeen {x : Str} {l : List Str} : x ∈ firstSeen l ↔ x ∈ l := by
  rw [firstSeen_eq_aux, mem_firstSeenAux]
  simp

/-! ### Lemmas about the modelled pipeline functions -/

theorem exists_ok_of_isOk {ε α : Type} {x : Except ε α} (h : x.isOk = true) :
    ∃ a, x = Except.ok a := by
  cases x with
  | error e => simp [Except.isOk, Except.toBool] at h
  | ok a => exact ⟨a, rfl⟩

theorem rating_handler_of_ok {env : Env} {key : Str} {mj : MetaJson}
    (h : env.metaResp key = Except.ok mj) :
    rating_handler env key =
      ([ApiCall.getMetadata key],
       Except.ok (if mj.numKeys = 0 then none
                  else if mj.dataEmpty then none else some mj.user_rating)) := by
  simp only [rating_handler, api_handler, h]
  split_ifs <;> rfl

theorem rating_handler_of_error {env : Env} {key : Str} {e : Str}
    (h : env.metaResp key = Except.error e) :
    rating_handler env key =
      ([ApiCall.getMetadata key], Except.error (e ++ nlStr ++ baseUrlHint)) := by
  simp only [rating_handler, api_handler, h]

theorem ratingValue_of_ok {env : Env} {key : Str} {mj : MetaJson}
    (h : env.metaResp key = Except.ok mj) :
    ratingValue env key =
      (if mj.numKeys = 0 then none
       else if mj.dataEmpty then none else some mj.user_rating) := by
  simp only [ratingValue, rating_handler_of_ok h]

/-- Bridge between the count-indexed while loop and its suffix-indexed proof
companion: when the server-reported total equals the number of fetched
records (the shape every successful run has), the while loop started at any
in-range count behaves as loopSpec on the remaining suffix. -/
theorem whileLoop_eq_loopSpec (env : Env) (data : List Record) :
    ∀ (rest : List Record) (count : Nat) (movies : List Str),
      List.drop count data = rest → rest ≠ [] →
      whileLoop env data data.length count movies = loopSpec env rest movies := by
  intro rest
  induction rest with
  | nil =>
    intro count movies _ hne
    exact absurd rfl hne
  | cons r rest' ih =>
    intro count movies hdrop _
    have hlt : count < data.length := by
      by_contra hge
      rw [List.drop_eq_nil_of_le (Nat.le_of_not_lt hge)] at hdrop
      exact List.cons_ne_nil r rest' hdrop.symm
    have hcons := List.drop_eq_getElem_cons hlt
    rw [hdrop] at hcons
    injection hcons with hget hdrop'
    have hlen : count + 1 + rest'.length = data.length := by
      have hld := congrArg List.length hdrop
      rw [List.length_drop] at hld
      simp at hld
      omega
    rw [whileLoop, dif_pos (Nat.le_of_lt hlt), dif_pos hlt]
    rw [show data[count] = r from hget.symm]
    simp only [loopSpec]
    by_cases hw : r.watched_status = 1
    · rw [if_pos hw, if_pos hw]
      rcases hrh : rating_handler env r.rating_key with ⟨calls, out⟩
      cases out with
      | error m => rfl
      | ok rating10 =>
        dsimp only
        by_cases hrest : rest' = []
        · have htot : count + 1 = data.length := by
            subst hrest
            simpa using hlen
          rw [if_pos htot, if_pos hrest]
        · have htot : ¬(count + 1 = data.length) := by
            have : rest'.length ≠ 0 := fun h0 => hrest (List.eq_nil_of_length_eq_zero h0)
            omega
          rw [if_neg htot, if_neg hrest]
          rw [ih (count + 1) (insertNew movies (renderRow r rating10)) hdrop'.symm hrest]
    · rw [if_neg hw, if_neg hw]
      by_cases hrest : rest' = []
      · have htot : count + 1 = data.length := by
          subst hrest
          simpa using hlen
        rw [if_pos htot, if_pos hrest]
      · have htot : ¬(count + 1 = data.length) := by
          have : rest'.length ≠ 0 := fun h0 => hrest (List.eq_nil_of_length_eq_zero h0)
          omega
        rw [if_neg htot, if_neg hrest]
        exact ih (count + 1) movies hdrop'.symm hrest

theorem isWatched_true {r : Record} (h : r.watched_status = 1) : isWatched r = true := by
  simp [isWatched, h]

theorem isWatched_false {r : Record} (h : ¬(r.watched_status = 1)) : isWatched r = false := by
  simp [isWatched, h]

/-- On a record list whose watched records all have a successful metadata
lookup, one pass of the loop issues exactly one get_metadata call per
watched record (in feed order) and returns the movies list obtained by
folding the insert-if-new step over the candidate rows of the watched
records, together with its length. -/
theorem loopSpec_success (env : Env) :
    ∀ (rs : List Record) (movies : List Str), rs ≠ [] →
      (∀ r ∈ rs, r.watched_status = 1 → (env.metaResp r.rating_key).isOk = true) →
      loopSpec env rs movies =
        (metadataCalls rs,
         LoopOut.returned
           (List.foldl insertNew movies ((rs.filter isWatched).map (candidateRow env)))
           (List.foldl insertNew movies ((rs.filter isWatched).map (candidateRow env))).length) := by
  intro rs
  induction rs with
  | nil =>
    intro movies hne _
    exact absurd rfl hne
  | cons r rest ih =>
    intro movies _ hmeta
    have hmr := hmeta r (List.mem_cons_self _ _)
    have hmeta' : ∀ x ∈ rest, x.watched_status = 1 → (env.metaResp x.rating_key).isOk = true :=
      fun x hx => hmeta x (List.mem_cons_of_mem _ hx)
    by_cases hw : r.watched_status = 1
    · obtain ⟨mj, hmj⟩ := exists_ok_of_isOk (hmr hw)
      have hcand : candidateRow env r =
          renderRow r (if mj.numKeys = 0 then none
                       else if mj.dataEmpty then none else some mj.user_rating) := by
        rw [candidateRow, ratingValue_of_ok hmj]
      have hfil : (r :: rest).filter isWatched = r :: rest.filter isWatched := by
        simp [List.filter_cons, isWatched_true hw]
      simp only [loopSpec, if_pos hw, rating_handler_of_ok hmj]
      by_cases hrest : rest = []
      · subst hrest
        simp [metadataCalls, hfil, hcand]
      · rw [if_neg hrest, ih _ hrest hmeta']
        simp only [metadataCalls, hfil, List.map_cons, List.foldl_cons, hcand]
        simp
    · have hfil : (r :: rest).filter isWatched = rest.filter isWatched := by
        simp [List.filter_cons, isWatched_false hw]
      simp only [loopSpec, if_neg hw]
      by_cases hrest : rest = []
      · subst hrest
        simp [metadataCalls, hfil]
      · rw [if_neg hrest, ih _ hrest hmeta']
        simp only [metadataCalls, hfil]

/-- If the loop reaches a watched record whose metadata request raises a
connection error — all earlier watched records having successful lookups —
then the pass ends at that record with the sys.exit of api_handler, having
issued exactly one get_metadata call per earlier watched record plus the
failing one; no call is retried and nothing after the failing record is
processed. -/
theorem loopSpec_fail (env : Env) {e : Str} :
    ∀ (pre : List Record) (r : Record) (post : List Record) (movies : List Str),
      (∀ x ∈ pre, x.watched_status = 1 → (env.metaResp x.rating_key).isOk = true) →
      r.watched_status = 1 →
      env.metaResp r.rating_key = Except.error e →
      loopSpec env (pre ++ r :: post) movies =
        (metadataCalls pre ++ [ApiCall.getMetadata r.rating_key],
         LoopOut.exited (e ++ nlStr ++ baseUrlHint)) := by
  intro pre
  induction pre with
  | nil =>
    intro r post movies _ hw herr
    simp only [List.nil_append, loopSpec, if_pos hw, rating_handler_of_error herr]
    simp [metadataCalls]
  | cons x pre' ih =>
    intro r post movies hmeta hw herr
    have hmx := hmeta x (List.mem_cons_self _ _)
    have hmeta' : ∀ y ∈ pre', y.watched_status = 1 → (env.metaResp y.rating_key).isOk = true :=
      fun y hy => hmeta y (List.mem_cons_of_mem _ hy)
    have hne : pre' ++ r :: post ≠ [] := by
      intro h0
      exact List.cons_ne_nil r post (List.append_eq_nil.mp h0).2
    by_cases hxw : x.watched_status = 1
    · obtain ⟨mj, hmj⟩ := exists_ok_of_isOk (hmx hxw)
      have hfil : (x :: pre').filter isWatched = x :: pre'.filter isWatched := by
        simp [List.filter_cons, isWatched_true hxw]
      simp only [List.cons_append, loopSpec, if_pos hxw, rating_handler_of_ok hmj,
        List.append_eq]
      rw [if_neg hne, ih r post _ hmeta' hw herr]
      simp [metadataCalls, hfil]
    · have hfil : (x :: pre').filter isWatched = pre'.filter isWatched := by
        simp [List.filter_cons, isWatched_false hxw]
      simp only [List.cons_append, loopSpec, if_neg hxw, List.append_eq]
      rw [if_neg hne, ih r post _ hmeta' hw herr]
      simp [metadataCalls, hfil]

theorem get_length_of_count {env : Env} {cj : CountJson} {n : Nat}
    (hc : env.countResp = Except.ok cj) (hck : cj.numKeys ≠ 0)
    (hcf : cj.recordsFiltered = some n) :
    get_length env = ([ApiCall.getHistoryCount], Except.ok (some n)) := by
  simp only [get_length, api_handler, hc, if_neg hck, hcf]

/-- A well-formed successful run of json_parser: count response present with
recordsFiltered equal to the number of fetched records, a non-empty record
list, and all watched records with successful metadata lookups.  The parser
issues the count call, the full fetch with that length, then one
get_metadata call per watched record, and returns the first-seen
deduplication of the candidate rows with its length. -/
theorem jsonParser_success (env : Env) (cj : CountJson) (hj : HistoryJson) (n : Nat)
    (hc : env.countResp = Except.ok cj) (hck : cj.numKeys ≠ 0)
    (hcf : cj.recordsFiltered = some n)
    (hh : env.historyResp (some n) = Except.ok hj) (hhk : hj.numKeys ≠ 0)
    (hlen : hj.data.length = n) (hn : n ≠ 0)
    (hmeta : ∀ r ∈ hj.data, r.watched_status = 1 → (env.metaResp r.rating_key).isOk = true) :
    jsonParser env =
      ([ApiCall.getHistoryCount, ApiCall.getHistoryFull (some n)] ++ metadataCalls hj.data,
       Outcome.ok (some (firstSeen (candidateRows env hj.data),
                         (firstSeen (candidateRows env hj.data)).length))) := by
  have hdata : hj.data ≠ [] := by
    intro h0
    rw [h0] at hlen
    exact hn hlen.symm
  have hwl : whileLoop env hj.data n 0 [] =
      loopSpec env hj.data [] := by
    rw [← hlen]
    exact whileLoop_eq_loopSpec env hj.data hj.data 0 [] (List.drop_zero hj.data) hdata
  obtain ⟨k, hk⟩ : ∃ k, hj.numKeys = k + 1 := by
    cases hhk' : hj.numKeys with
    | zero => exact absurd hhk' hhk
    | succ k => exact ⟨k, rfl⟩
  simp only [jsonParser, get_length_of_count hc hck hcf, api_handler, hh, hk, forLoop,
    hwl, loopSpec_success env hj.data [] hdata hmeta]
  simp [firstSeen, candidateRows]

/-- The header row never needs escaping, so its writerow succeeds and writes
the header text followed by the line terminator. -/
theorem writerow_header : writerow [headerText] = Except.ok (headerText ++ crlf) := by
  rfl

/-- When no field contains a newline or carriage return, writerow succeeds
and writes the fields joined by the newline delimiter followed by the line
terminator. -/
theorem writerow_of_clean {fields : List Str}
    (h : ∀ f ∈ fields, ∀ c ∈ f, ¬(c = '\n' ∨ c = '\r')) :
    writerow fields = Except.ok (pyJoin nlStr fields ++ crlf) := by
  rw [writerow, if_neg]
  intro hcon
  simp only [List.any_eq_true] at hcon
  obtain ⟨f, hf, c, hc, hcc⟩ := hcon
  exact h f hf c hc (by simpa using hcc)

/-- A well-formed successful run of the whole export: to_csv issues the
count call, the full fetch, one get_metadata call per watched record, and
completes with a file whose content is the header line followed by the
first-seen-deduplicated candidate rows joined by newlines, and prints their
count. -/
theorem to_csv_success (env : Env) (cj : CountJson) (hj : HistoryJson) (n : Nat)
    (hc : env.countResp = Except.ok cj) (hck : cj.numKeys ≠ 0)
    (hcf : cj.recordsFiltered = some n)
    (hh : env.historyResp (some n) = Except.ok hj) (hhk : hj.numKeys ≠ 0)
    (hlen : hj.data.length = n) (hn : n ≠ 0)
    (hmeta : ∀ r ∈ hj.data, r.watched_status = 1 → (env.metaResp r.rating_key).isOk = true)
    (hclean : ∀ row ∈ candidateRows env hj.data, ∀ c ∈ row, ¬(c = '\n' ∨ c = '\r')) :
    to_csv env =
      ([ApiCall.getHistoryCount, ApiCall.getHistoryFull (some n)] ++ metadataCalls hj.data,
       RunResult.completed
         ((headerText ++ crlf) ++ (pyJoin nlStr (firstSeen (candidateRows env hj.data)) ++ crlf))
         (firstSeen (candidateRows env hj.data)).length) := by
  have hclean' : ∀ row ∈ firstSeen (candidateRows env hj.data), ∀ c ∈ row,
      ¬(c = '\n' ∨ c = '\r') :=
    fun row hrow => hclean row (mem_firstSeen.mp hrow)
  simp only [to_csv, jsonParser_success env cj hj n hc hck hcf hh hhk hlen hn hmeta,
    writerow_header, writerow_of_clean hclean']

/-! ### The claims -/

/-- Claim C2 is false as stated: the claim's own example title contains no
comma, and for a comma-free title json_parser emits the raw title verbatim
— embedded newlines, edge whitespace and all — not the normalized form.
The normalization of line 101 sits entirely inside the comma branch of the
conditional expression. -/
theorem c2_counterexample :
    renderTitle ("Line One\n  Line Two  \n").data = ("Line One\n  Line Two  \n").data ∧
    renderTitle ("Line One\n  Line Two  \n").data ≠ ("Line One Line Two").data :=
  ⟨by decide, by decide⟩

/-- Claim C2 (amended): the split/strip/drop/rejoin title normalization is
applied only when the raw title contains a comma, in which case the
normalized title is additionally wrapped in literal quote characters; a
title without a comma is rendered verbatim, embedded newlines included.
Segments are dropped when they are empty before stripping.  A comma-bearing
variant of the claim's example normalizes as the claim describes. -/
theorem c2_amended (a b : Str) (ha : ',' ∈ a) (hb : ',' ∉ b) :
    renderTitle a =
      quoteChar ::
        (pyJoin [' '] (((pySplitNl a).filter (fun s => s ≠ [])).map pyStrip) ++ [quoteChar]) ∧
    renderTitle b = b ∧
    renderTitle ("Line One,\n  Line Two  \n").data =
      quoteChar :: (("Line One, Line Two").data ++ [quoteChar]) := by
  refine ⟨?_, renderTitle_of_no_comma hb, by decide⟩
  rw [renderTitle_of_comma ha, normalizeTitle]

/-- Witness for the amended claim C2 at concrete titles. -/
theorem c2_witness :
    ',' ∈ ("War, Inc").data ∧ ',' ∉ ("Heat").data ∧
    (renderTitle ("War, Inc").data =
       quoteChar ::
         (pyJoin [' ']
            (((pySplitNl ("War, Inc").data).filter (fun s => s ≠ [])).map pyStrip) ++
           [quoteChar]) ∧
     renderTitle ("Heat").data = ("Heat").data ∧
     renderTitle ("Line One,\n  Line Two  \n").data =
       quoteChar :: (("Line One, Line Two").data ++ [quoteChar])) :=
  ⟨by decide, by decide, c2_amended ("War, Inc").data ("Heat").data (by decide) (by decide)⟩

/-- Claim C3: if the normalized title contains a comma, the rendered title
is the normalized title wrapped in a literal double quote character on both
ends; if it contains no comma, the title is emitted without quoting.  The
code tests the raw title for a comma, but a comma occurs in the normalized
title exactly when it occurs in the raw one, so the claim holds; the
claim's two examples are included. -/
theorem c3_title_quoting (a b : Str)
    (ha : ',' ∈ normalizeTitle a) (hb : ',' ∉ normalizeTitle b) :
    renderTitle a = quoteChar :: (normalizeTitle a ++ [quoteChar]) ∧
    renderTitle b = b ∧
    renderTitle ("Movie, The Sequel").data =
      quoteChar :: (("Movie, The Sequel").data ++ [quoteChar]) ∧
    renderTitle ("Clean Title").data = ("Clean Title").data :=
  ⟨renderTitle_of_comma (comma_mem_normalizeTitle.mp ha),
   renderTitle_of_no_comma (fun hc => hb (comma_mem_normalizeTitle.mpr hc)),
   by decide, by decide⟩

/-- Witness for claim C3 at concrete titles. -/
theorem c3_witness :
    ',' ∈ normalizeTitle ("Movie, Returns").data ∧
    ',' ∉ normalizeTitle ("Plain Title").data ∧
    (renderTitle ("Movie, Returns").data =
       quoteChar :: (normalizeTitle ("Movie, Returns").data ++ [quoteChar]) ∧
     renderTitle ("Plain Title").data = ("Plain Title").data ∧
     renderTitle ("Movie, The Sequel").data =
       quoteChar :: (("Movie, The Sequel").data ++ [quoteChar]) ∧
     renderTitle ("Clean Title").data = ("Clean Title").data) :=
  ⟨by decide, by decide,
   c3_title_quoting ("Movie, Returns").data ("Plain Title").data (by decide) (by decide)⟩

/-- Claim C5: when the count-phase response is a non-empty JSON object that
lacks recordsFiltered at the expected position, the program exits with the
API-key message having issued only the count request — the full-history
fetch is never issued, no metadata request is issued, and no file is
written. -/
theorem c5_credential_failure (env : Env) (cj : CountJson)
    (hc : env.countResp = Except.ok cj) (hck : cj.numKeys ≠ 0)
    (hcf : cj.recordsFiltered = none) :
    jsonParser env = ([ApiCall.getHistoryCount], Outcome.sysExit apiKeyMsg) ∧
    to_csv env = ([ApiCall.getHistoryCount], RunResult.abortedNoFile apiKeyMsg) ∧
    (∀ x, ApiCall.getHistoryFull x ∉ (jsonParser env).1) ∧
    (∀ k, ApiCall.getMetadata k ∉ (jsonParser env).1) := by
  have hgl : get_length env = ([ApiCall.getHistoryCount], Except.error apiKeyMsg) := by
    simp only [get_length, api_handler, hc, if_neg hck, hcf]
  have hjp : jsonParser env = ([ApiCall.getHistoryCount], Outcome.sysExit apiKeyMsg) := by
    simp only [jsonParser, hgl]
  refine ⟨hjp, by simp only [to_csv, hjp], fun x => ?_, fun k => ?_⟩
  · rw [hjp]
    simp
  · rw [hjp]
    simp

/-- Witness for claim C5 at a concrete environment. -/
theorem c5_witness :
    envC5wit.countResp = Except.ok { numKeys := 2, recordsFiltered := none } ∧
    ({ numKeys := 2, recordsFiltered := none } : CountJson).numKeys ≠ 0 ∧
    (jsonParser envC5wit = ([ApiCall.getHistoryCount], Outcome.sysExit apiKeyMsg) ∧
     to_csv envC5wit = ([ApiCall.getHistoryCount], RunResult.abortedNoFile apiKeyMsg) ∧
     (∀ x, ApiCall.getHistoryFull x ∉ (jsonParser envC5wit).1) ∧
     (∀ k, ApiCall.getMetadata k ∉ (jsonParser envC5wit).1)) :=
  ⟨rfl, by decide,
   c5_credential_failure envC5wit { numKeys := 2, recordsFiltered := none } rfl (by decide) rfl⟩

/-- Claim C6: a rating key whose metadata lookup returns a response with an
empty data payload resolves to the absent value — not an error — and the
row rendered for any record carrying that key has the word None (the
Python rendering of the absent value) as its rating field. -/
theorem c6_rating_absent (env : Env) (key : Str) (mj : MetaJson)
    (h : env.metaResp key = Except.ok mj) (hk : mj.numKeys ≠ 0)
    (he : mj.dataEmpty = true) :
    rating_handler env key = ([ApiCall.getMetadata key], Except.ok none) ∧
    ratingValue env key = none ∧
    (∀ r : Record, r.rating_key = key →
      candidateRow env r =
        renderTitle r.title ++ [','] ++ r.year ++ [','] ++ ("None").data ++ [','] ++
          formatDate r.date) := by
  have h1 : rating_handler env key = ([ApiCall.getMetadata key], Except.ok none) := by
    rw [rating_handler_of_ok h, if_neg hk, if_pos he]
  have h2 : ratingValue env key = none := by
    simp only [ratingValue, h1]
  refine ⟨h1, h2, fun r hr => ?_⟩
  rw [candidateRow, hr, h2, renderRow]
  rfl

/-- Witness for claim C6 at a concrete environment and key. -/
theorem c6_witness :
    envC6wit.metaResp ("101").data = Except.ok metaEmptyJson ∧
    metaEmptyJson.numKeys ≠ 0 ∧
    metaEmptyJson.dataEmpty = true ∧
    (rating_handler envC6wit ("101").data =
       ([ApiCall.getMetadata ("101").data], Except.ok none) ∧
     ratingValue envC6wit ("101").data = none ∧
     (∀ r : Record, r.rating_key = ("101").data →
       candidateRow envC6wit r =
         renderTitle r.title ++ [','] ++ r.year ++ [','] ++ ("None").data ++ [','] ++
           formatDate r.date)) :=
  ⟨rfl, by decide, rfl,
   c6_rating_absent envC6wit ("101").data metaEmptyJson rfl (by decide) rfl⟩

/-- Claim C8: whenever json_parser does not produce an unpackable
movies/length pair — every fatal abort in the count, fetch, rating-lookup
or parse phase, be it a connection failure, a credential failure, an index
failure or a type failure — to_csv ends without the output file ever being
created or modified. -/
theorem c8_no_file_on_abort (env : Env)
    (h : isSuccessOutcome (jsonParser env).2 = false) :
    ∃ m, (to_csv env).2 = RunResult.abortedNoFile m := by
  rcases hjp : jsonParser env with ⟨calls, out⟩
  rw [hjp] at h
  cases out with
  | ok v =>
    cases v with
    | none => exact ⟨unpackErrText ++ nlStr ++ invalidUserHint, by simp [to_csv, hjp]⟩
    | some p => simp [isSuccessOutcome] at h
  | sysExit m => exact ⟨m, by simp [to_csv, hjp]⟩
  | typeErr m => exact ⟨m ++ nlStr ++ invalidUserHint, by simp [to_csv, hjp]⟩

/-- Witness for claim C8 at a concrete aborting environment. -/
theorem c8_witness :
    isSuccessOutcome (jsonParser envC8wit).2 = false ∧
    ∃ m, (to_csv envC8wit).2 = RunResult.abortedNoFile m :=
  ⟨by decide, c8_no_file_on_abort envC8wit (by decide)⟩

/-- Claim C9: a server-reported filtered count of zero with an empty record
list does not yield a header-only CSV: the while condition still admits
index zero, reading element zero of the empty list raises IndexError, and
the program exits with the index-error message — before any file is
opened. -/
theorem c9_zero_count_index_error (env : Env) (cj : CountJson) (hj : HistoryJson)
    (hc : env.countResp = Except.ok cj) (hck : cj.numKeys ≠ 0)
    (hcf : cj.recordsFiltered = some 0)
    (hh : env.historyResp (some 0) = Except.ok hj) (hhk : hj.numKeys ≠ 0)
    (hdata : hj.data = []) :
    jsonParser env =
      ([ApiCall.getHistoryCount, ApiCall.getHistoryFull (some 0)],
       Outcome.sysExit (idxErrText ++ nlStr ++ indexErrHint)) ∧
    to_csv env =
      ([ApiCall.getHistoryCount, ApiCall.getHistoryFull (some 0)],
       RunResult.abortedNoFile (idxErrText ++ nlStr ++ indexErrHint)) := by
  have hwl : whileLoop env hj.data 0 0 [] = ([], LoopOut.idxErr idxErrText) := by
    rw [hdata, whileLoop]
    rfl
  obtain ⟨k, hk⟩ : ∃ k, hj.numKeys = k + 1 := by
    cases hhk' : hj.numKeys with
    | zero => exact absurd hhk' hhk
    | succ k => exact ⟨k, rfl⟩
  have hfl : forLoop env hj.data 0 hj.numKeys [] =
      ([], Outcome.sysExit (idxErrText ++ nlStr ++ indexErrHint)) := by
    rw [hk]
    simp only [forLoop, hwl]
  have hjp : jsonParser env =
      ([ApiCall.getHistoryCount, ApiCall.getHistoryFull (some 0)],
       Outcome.sysExit (idxErrText ++ nlStr ++ indexErrHint)) := by
    simp only [jsonParser, get_length_of_count hc hck hcf, api_handler, hh, hfl]
    simp
  exact ⟨hjp, by simp only [to_csv, hjp]⟩

/-- Witness for claim C9 at a concrete environment. -/
theorem c9_witness :
    envC9wit.countResp = Except.ok { numKeys := 1, recordsFiltered := some 0 } ∧
    envC9wit.historyResp (some 0) = Except.ok { numKeys := 1, data := [] } ∧
    (jsonParser envC9wit =
       ([ApiCall.getHistoryCount, ApiCall.getHistoryFull (some 0)],
        Outcome.sysExit (idxErrText ++ nlStr ++ indexErrHint)) ∧
     to_csv envC9wit =
       ([ApiCall.getHistoryCount, ApiCall.getHistoryFull (some 0)],
        RunResult.abortedNoFile (idxErrText ++ nlStr ++ indexErrHint))) :=
  ⟨rfl, rfl,
   c9_zero_count_index_error envC9wit { numKeys := 1, recordsFiltered := some 0 }
     { numKeys := 1, data := [] } rfl (by decide) rfl rfl (by decide) rfl⟩

/-- Claim C10: when the full-history response parses to a JSON object with
no keys, the iteration body never executes (in particular no metadata call
is issued), json_parser falls off its end returning the absent value, and
unpacking that value in to_csv raises the TypeError that is caught and
turned into the invalid-user exit; no output file is written. -/
theorem c10_empty_history_object (env : Env) (cj : CountJson) (hj : HistoryJson) (n : Nat)
    (hc : env.countResp = Except.ok cj) (hck : cj.numKeys ≠ 0)
    (hcf : cj.recordsFiltered = some n)
    (hh : env.historyResp (some n) = Except.ok hj) (hhk : hj.numKeys = 0) :
    jsonParser env =
      ([ApiCall.getHistoryCount, ApiCall.getHistoryFull (some n)], Outcome.ok none) ∧
    to_csv env =
      ([ApiCall.getHistoryCount, ApiCall.getHistoryFull (some n)],
       RunResult.abortedNoFile (unpackErrText ++ nlStr ++ invalidUserHint)) ∧
    (∀ k, ApiCall.getMetadata k ∉ (jsonParser env).1) := by
  have hjp : jsonParser env =
      ([ApiCall.getHistoryCount, ApiCall.getHistoryFull (some n)], Outcome.ok none) := by
    simp only [jsonParser, get_length_of_count hc hck hcf, api_handler, hh, hhk, forLoop]
    simp
  refine ⟨hjp, by simp only [to_csv, hjp], fun k => ?_⟩
  rw [hjp]
  simp

/-- Witness for claim C10 at a concrete environment. -/
theorem c10_witness :
    envC10wit.countResp = Except.ok { numKeys := 1, recordsFiltered := some 3 } ∧
    envC10wit.historyResp (some 3) = Except.ok { numKeys := 0, data := [] } ∧
    (jsonParser envC10wit =
       ([ApiCall.getHistoryCount, ApiCall.getHistoryFull (some 3)], Outcome.ok none) ∧
     to_csv envC10wit =
       ([ApiCall.getHistoryCount, ApiCall.getHistoryFull (some 3)],
        RunResult.abortedNoFile (unpackErrText ++ nlStr ++ invalidUserHint)) ∧
     (∀ k, ApiCall.getMetadata k ∉ (jsonParser envC10wit).1)) :=
  ⟨rfl, rfl,
   c10_empty_history_object envC10wit { numKeys := 1, recordsFiltered := some 3 }
     { numKeys := 0, data := [] } 3 rfl (by decide) rfl rfl rfl⟩

/-- Claim C1 is false as stated in one corner: a run whose only fetched
record is unwatched completes successfully, yet the written file is the
header line followed by one empty line (the movies writerow still emits its
line terminator for an empty row list), not exactly the header line alone
as one header line plus zero data lines would require. -/
theorem c1_counterexample :
    to_csv envC1cex =
      ([ApiCall.getHistoryCount, ApiCall.getHistoryFull (some 1)],
       RunResult.completed (headerText ++ crlf ++ crlf) 0) ∧
    headerText ++ crlf ++ crlf ≠ headerText ++ crlf := by
  constructor
  · have h := to_csv_success envC1cex { numKeys := 1, recordsFiltered := some 1 }
      { numKeys := 1, data := [recUnwatched] } 1 rfl (by decide) rfl rfl (by decide)
      (by decide) (by decide) (by decide) (by decide)
    rw [h]
    decide
  · decide

/-- Claim C1 (amended): for every successfully completing run the written
CSV is the header line followed by the distinct candidate rows of the
watched records joined by the newline delimiter and closed by one line
terminator: no row appears twice (the list is nodup), the rows appear in
first-seen feed order (the deduplicated list is a subsequence of the
candidate rows), and every candidate row appears; when there are zero
distinct rows the file additionally ends with one empty line, because the
writer emits its line terminator even for an empty row list. -/
theorem c1_amended (env : Env) (cj : CountJson) (hj : HistoryJson) (n : Nat)
    (hc : env.countResp = Except.ok cj) (hck : cj.numKeys ≠ 0)
    (hcf : cj.recordsFiltered = some n)
    (hh : env.historyResp (some n) = Except.ok hj) (hhk : hj.numKeys ≠ 0)
    (hlen : hj.data.length = n) (hn : n ≠ 0)
    (hmeta : ∀ r ∈ hj.data, r.watched_status = 1 → (env.metaResp r.rating_key).isOk = true)
    (hclean : ∀ row ∈ candidateRows env hj.data, ∀ c ∈ row, ¬(c = '\n' ∨ c = '\r')) :
    to_csv env =
      ([ApiCall.getHistoryCount, ApiCall.getHistoryFull (some n)] ++ metadataCalls hj.data,
       RunResult.completed
         ((headerText ++ crlf) ++
           (pyJoin nlStr (firstSeen (candidateRows env hj.data)) ++ crlf))
         (firstSeen (candidateRows env hj.data)).length) ∧
    (firstSeen (candidateRows env hj.data)).Nodup ∧
    List.Sublist (firstSeen (candidateRows env hj.data)) (candidateRows env hj.data) ∧
    (∀ x, x ∈ firstSeen (candidateRows env hj.data) ↔ x ∈ candidateRows env hj.data) :=
  ⟨to_csv_success env cj hj n hc hck hcf hh hhk hlen hn hmeta hclean,
   firstSeen_nodup _, firstSeen_sublist _, fun _ => mem_firstSeen⟩

/-- Witness for the amended claim C1 at a concrete environment with one
watched and one unwatched record. -/
theorem c1_witness :
    (envC1wit.countResp = Except.ok { numKeys := 1, recordsFiltered := some 2 } ∧
     envC1wit.historyResp (some 2) =
       Except.ok { numKeys := 1, data := [recWatched, recUnwatched] } ∧
     ([recWatched, recUnwatched] : List Record).length = 2 ∧
     (∀ r ∈ ([recWatched, recUnwatched] : List Record), r.watched_status = 1 →
       (envC1wit.metaResp r.rating_key).isOk = true) ∧
     (∀ row ∈ candidateRows envC1wit [recWatched, recUnwatched], ∀ c ∈ row,
       ¬(c = '\n' ∨ c = '\r'))) ∧
    (to_csv envC1wit =
       ([ApiCall.getHistoryCount, ApiCall.getHistoryFull (some 2)] ++
          metadataCalls [recWatched, recUnwatched],
        RunResult.completed
          ((headerText ++ crlf) ++
            (pyJoin nlStr (firstSeen (candidateRows envC1wit [recWatched, recUnwatched])) ++
              crlf))
          (firstSeen (candidateRows envC1wit [recWatched, recUnwatched])).length) ∧
     (firstSeen (candidateRows envC1wit [recWatched, recUnwatched])).Nodup ∧
     List.Sublist (firstSeen (candidateRows envC1wit [recWatched, recUnwatched]))
       (candidateRows envC1wit [recWatched, recUnwatched]) ∧
     (∀ x, x ∈ firstSeen (candidateRows envC1wit [recWatched, recUnwatched]) ↔
       x ∈ candidateRows envC1wit [recWatched, recUnwatched])) :=
  ⟨⟨rfl, rfl, by decide, by decide, by decide⟩,
   c1_amended envC1wit { numKeys := 1, recordsFiltered := some 2 }
     { numKeys := 1, data := [recWatched, recUnwatched] } 2 rfl (by decide) rfl rfl
     (by decide) (by decide) (by decide) (by decide) (by decide)⟩

/-- Claim C4: in a successful run, each fetched record produces exactly one
candidate row — its rating resolved through exactly one get_metadata call,
its fields rendered, the row offered once to the deduplication — if and
only if its watched_status equals 1; records with any other status
contribute no call and no row, so restricting the feed to its watched
records changes nothing. -/
theorem c4_candidate_iff_watched (env : Env) (cj : CountJson) (hj : HistoryJson) (n : Nat)
    (hc : env.countResp = Except.ok cj) (hck : cj.numKeys ≠ 0)
    (hcf : cj.recordsFiltered = some n)
    (hh : env.historyResp (some n) = Except.ok hj) (hhk : hj.numKeys ≠ 0)
    (hlen : hj.data.length = n) (hn : n ≠ 0)
    (hmeta : ∀ r ∈ hj.data, r.watched_status = 1 → (env.metaResp r.rating_key).isOk = true) :
    jsonParser env =
      ([ApiCall.getHistoryCount, ApiCall.getHistoryFull (some n)] ++ metadataCalls hj.data,
       Outcome.ok (some (firstSeen (candidateRows env hj.data),
                         (firstSeen (candidateRows env hj.data)).length))) ∧
    metadataCalls hj.data =
      (hj.data.filter isWatched).map (fun r => ApiCall.getMetadata r.rating_key) ∧
    candidateRows env hj.data = (hj.data.filter isWatched).map (candidateRow env) ∧
    (candidateRows env hj.data).length = (hj.data.filter isWatched).length ∧
    candidateRows env (hj.data.filter isWatched) = candidateRows env hj.data := by
  refine ⟨jsonParser_success env cj hj n hc hck hcf hh hhk hlen hn hmeta, rfl, rfl,
    by simp [candidateRows], ?_⟩
  rw [candidateRows, candidateRows, List.filter_filter]
  simp

/-- Witness for claim C4 at a concrete environment. -/
theorem c4_witness :
    (envC4wit.countResp = Except.ok { numKeys := 1, recordsFiltered := some 2 } ∧
     envC4wit.historyResp (some 2) =
       Except.ok { numKeys := 1, data := [recUnwatched, recWatched] } ∧
     ([recUnwatched, recWatched] : List Record).length = 2 ∧
     (∀ r ∈ ([recUnwatched, recWatched] : List Record), r.watched_status = 1 →
       (envC4wit.metaResp r.rating_key).isOk = true)) ∧
    (jsonParser envC4wit =
       ([ApiCall.getHistoryCount, ApiCall.getHistoryFull (some 2)] ++
          metadataCalls [recUnwatched, recWatched],
        Outcome.ok (some (firstSeen (candidateRows envC4wit [recUnwatched, recWatched]),
          (firstSeen (candidateRows envC4wit [recUnwatched, recWatched])).length))) ∧
     metadataCalls [recUnwatched, recWatched] =
       (([recUnwatched, recWatched] : List Record).filter isWatched).map
         (fun r => ApiCall.getMetadata r.rating_key) ∧
     candidateRows envC4wit [recUnwatched, recWatched] =
       (([recUnwatched, recWatched] : List Record).filter isWatched).map
         (candidateRow envC4wit) ∧
     (candidateRows envC4wit [recUnwatched, recWatched]).length =
       (([recUnwatched, recWatched] : List Record).filter isWatched).length ∧
     candidateRows envC4wit (([recUnwatched, recWatched] : List Record).filter isWatched) =
       candidateRows envC4wit [recUnwatched, recWatched]) :=
  ⟨⟨rfl, rfl, by decide, by decide⟩,
   c4_candidate_iff_watched envC4wit { numKeys := 1, recordsFiltered := some 2 }
     { numKeys := 1, data := [recUnwatched, recWatched] } 2 rfl (by decide) rfl rfl
     (by decide) (by decide) (by decide) (by decide)⟩

/-- Claim C7: each of the three request sites — the count call, the
full-history fetch, and each per-item rating lookup — terminates the
process on a connection error with the underlying error text followed by
the remediation hint; no file is written and no retry happens: the failing
request appears exactly once, at the end of the call trace. -/
theorem c7_connection_error_aborts
    (envA : Env) (ea : Str) (ha : envA.countResp = Except.error ea)
    (envB : Env) (cjB : CountJson) (nB : Nat) (eb : Str)
    (hcB : envB.countResp = Except.ok cjB) (hckB : cjB.numKeys ≠ 0)
    (hcfB : cjB.recordsFiltered = some nB)
    (hhB : envB.historyResp (some nB) = Except.error eb)
    (envC : Env) (cjC : CountJson) (hjC : HistoryJson) (nC : Nat)
    (pre : List Record) (r : Record) (post : List Record) (ec : Str)
    (hcC : envC.countResp = Except.ok cjC) (hckC : cjC.numKeys ≠ 0)
    (hcfC : cjC.recordsFiltered = some nC)
    (hhC : envC.historyResp (some nC) = Except.ok hjC) (hhkC : hjC.numKeys ≠ 0)
    (hdataC : hjC.data = pre ++ r :: post) (hlenC : hjC.data.length = nC)
    (hpre : ∀ x ∈ pre, x.watched_status = 1 → (envC.metaResp x.rating_key).isOk = true)
    (hw : r.watched_status = 1) (herr : envC.metaResp r.rating_key = Except.error ec) :
    to_csv envA =
      ([ApiCall.getHistoryCount], RunResult.abortedNoFile (ea ++ nlStr ++ baseUrlHint)) ∧
    to_csv envB =
      ([ApiCall.getHistoryCount, ApiCall.getHistoryFull (some nB)],
       RunResult.abortedNoFile (eb ++ nlStr ++ baseUrlHint)) ∧
    to_csv envC =
      ([ApiCall.getHistoryCount, ApiCall.getHistoryFull (some nC)] ++
         (metadataCalls pre ++ [ApiCall.getMetadata r.rating_key]),
       RunResult.abortedNoFile (ec ++ nlStr ++ baseUrlHint)) := by
  refine ⟨?_, ?_, ?_⟩
  · have hjpA : jsonParser envA =
        ([ApiCall.getHistoryCount], Outcome.sysExit (ea ++ nlStr ++ baseUrlHint)) := by
      simp only [jsonParser, get_length, api_handler, ha]
    simp only [to_csv, hjpA]
  · have hjpB : jsonParser envB =
        ([ApiCall.getHistoryCount, ApiCall.getHistoryFull (some nB)],
         Outcome.sysExit (eb ++ nlStr ++ baseUrlHint)) := by
      simp only [jsonParser, get_length_of_count hcB hckB hcfB, api_handler, hhB]
      simp
    simp only [to_csv, hjpB]
  · have hne : hjC.data ≠ [] := by
      rw [hdataC]
      simp
    have hwl : whileLoop envC hjC.data nC 0 [] = loopSpec envC hjC.data [] := by
      rw [← hlenC]
      exact whileLoop_eq_loopSpec envC hjC.data hjC.data 0 [] (List.drop_zero hjC.data) hne
    have hls : loopSpec envC hjC.data [] =
        (metadataCalls pre ++ [ApiCall.getMetadata r.rating_key],
         LoopOut.exited (ec ++ nlStr ++ baseUrlHint)) := by
      rw [hdataC]
      exact loopSpec_fail envC pre r post [] hpre hw herr
    obtain ⟨k, hk⟩ : ∃ k, hjC.numKeys = k + 1 := by
      cases hhk' : hjC.numKeys with
      | zero => exact absurd hhk' hhkC
      | succ k => exact ⟨k, rfl⟩
    have hfl : forLoop envC hjC.data nC hjC.numKeys [] =
        (metadataCalls pre ++ [ApiCall.getMetadata r.rating_key],
         Outcome.sysExit (ec ++ nlStr ++ baseUrlHint)) := by
      rw [hk]
      simp only [forLoop, hwl, hls]
    have hjpC : jsonParser envC =
        ([ApiCall.getHistoryCount, ApiCall.getHistoryFull (some nC)] ++
           (metadataCalls pre ++ [ApiCall.getMetadata r.rating_key]),
         Outcome.sysExit (ec ++ nlStr ++ baseUrlHint)) := by
      simp only [jsonParser, get_length_of_count hcC hckC hcfC, api_handler, hhC, hfl]
      simp
    simp only [to_csv, hjpC]

/-- Witness for claim C7 at three concrete environments, one per failing
request site. -/
theorem c7_witness :
    (envC7a.countResp = Except.error ("conn refused at count").data ∧
     envC7b.countResp = Except.ok { numKeys := 1, recordsFiltered := some 1 } ∧
     envC7b.historyResp (some 1) = Except.error ("conn refused at fetch").data ∧
     envC7c.countResp = Except.ok { numKeys := 1, recordsFiltered := some 3 } ∧
     envC7c.historyResp (some 3) =
       Except.ok { numKeys := 1, data := [recWatched, recUnwatched, recBadMeta] } ∧
     ([recWatched, recUnwatched, recBadMeta] : List Record) =
       [recWatched, recUnwatched] ++ recBadMeta :: [] ∧
     (∀ x ∈ ([recWatched, recUnwatched] : List Record), x.watched_status = 1 →
       (envC7c.metaResp x.rating_key).isOk = true) ∧
     recBadMeta.watched_status = 1 ∧
     envC7c.metaResp recBadMeta.rating_key = Except.error ("conn refused at meta").data) ∧
    (to_csv envC7a =
       ([ApiCall.getHistoryCount],
        RunResult.abortedNoFile (("conn refused at count").data ++ nlStr ++ baseUrlHint)) ∧
     to_csv envC7b =
       ([ApiCall.getHistoryCount, ApiCall.getHistoryFull (some 1)],
        RunResult.abortedNoFile (("conn refused at fetch").data ++ nlStr ++ baseUrlHint)) ∧
     to_csv envC7c =
       ([ApiCall.getHistoryCount, ApiCall.getHistoryFull (some 3)] ++
          (metadataCalls [recWatched, recUnwatched] ++
            [ApiCall.getMetadata recBadMeta.rating_key]),
        RunResult.abortedNoFile (("conn refused at meta").data ++ nlStr ++ baseUrlHint))) :=
  ⟨⟨rfl, rfl, rfl, rfl, rfl, rfl, by decide, by decide, rfl⟩,
   c7_connection_error_aborts
     envC7a ("conn refused at count").data rfl
     envC7b { numKeys := 1, recordsFiltered := some 1 } 1 ("conn refused at fetch").data
       rfl (by decide) rfl rfl
     envC7c { numKeys := 1, recordsFiltered := some 3 }
       { numKeys := 1, data := [recWatched, recUnwatched, recBadMeta] } 3
       [recWatched, recUnwatched] recBadMeta [] ("conn refused at meta").data
       rfl (by decide) rfl rfl (by decide) rfl (by decide) (by decide) (by decide) rfl⟩

end Tautulli
